import Mathlib

/-!
Verification of the PyBOP optimisation adapter layer.

The source file `src/pybop/optimisers/scipy_minimize.py` defines the
gradient-based adapter `SciPyMinimize` (extending `BaseOptimiser`).  Real
values are modelled as rationals: the adapter itself performs no arithmetic
on them beyond order comparisons in validation, so `ℚ` is a faithful carrier.
The external SciPy backend `scipy.optimize.minimize` is modelled as an
abstract function parameter producing a native result object with fields
`x`, `fun` and `success`; theorems that need a property of the backend state
it as an explicit hypothesis.
-/

/-- A scalar cost function over real parameter vectors. -/
def CostFn : Type := List ℚ → ℚ

/-- The uniform bounds structure: a mapping with keys `lower` and `upper`,
each an ordered sequence of reals. -/
structure Bounds where
  lower : List ℚ
  upper : List ℚ
deriving Repr, DecidableEq

/-- The backend's native result object (SciPy `OptimizeResult`): the final
parameter vector `x`, the final objective value `fun` (written `fun'` since
`fun` is reserved in Lean), and the convergence flag `success`. -/
structure OptimizeResult where
  x : List ℚ
  fun' : ℚ
  success : Bool
deriving Repr, DecidableEq

/-- A backend minimizer: takes the cost function, the initial guess `x0`,
the method name, and an optional sequence of per-parameter
`(lower_i, upper_i)` pairs (absent in unconstrained mode) and returns its
native result object. -/
def Backend : Type :=
  CostFn → List ℚ → String → Option (List (ℚ × ℚ)) → OptimizeResult

/-- The error taxonomy of the optimisation layer. -/
inductive PybopError where
  | invalidInput : PybopError
  | backendExecution : PybopError
deriving Repr, DecidableEq

/-- The adapter's configuration fields, set in `SciPyMinimize.__init__`. -/
structure SciPyMinimize where
  name : String
  method : String
  bounds : Option Bounds
deriving Repr, DecidableEq

/-- `SciPyMinimize.__init__(method=None, bounds=None)`: stores the name, the
method (defaulting to "L-BFGS-B" when `None`) and the constructor bounds. -/
def SciPyMinimize.init (method : Option String) (bounds : Option Bounds) :
    SciPyMinimize :=
  { name := "SciPyMinimize"
    method := method.getD "L-BFGS-B"
    bounds := bounds }

/-- The bounds reformatting in `_runoptimise`:
`((lower, upper) for lower, upper in zip(bounds["lower"], bounds["upper"]))`. -/
def reformatBounds (b : Bounds) : List (ℚ × ℚ) :=
  b.lower.zip b.upper

/-- `SciPyMinimize._runoptimise(cost_function, x0, bounds)`: reformats the
bounds when present and invokes `minimize` (with the pair sequence, or
without a bounds argument when `bounds is None`), then reads `output.x` and
`output.fun`.  The second component counts backend invocations (the source
calls `minimize` exactly once in each branch). -/
def SciPyMinimize.runoptimise (self : SciPyMinimize) (minimize : Backend)
    (cost_function : CostFn) (x0 : List ℚ) (bounds : Option Bounds) :
    (List ℚ × ℚ) × Nat :=
  match bounds with
  | some b =>
      let output := minimize cost_function x0 self.method (some (reformatBounds b))
      ((output.x, output.fun'), 1)
  | none =>
      let output := minimize cost_function x0 self.method none
      ((output.x, output.fun'), 1)

/-- `SciPyMinimize.needs_sensitivities()`: returns `False`. -/
def SciPyMinimize.needs_sensitivities (_self : SciPyMinimize) : Bool :=
  false

/-- Modelled from the spec: the input validation performed by
`BaseOptimiser.run` (file `base_optimiser.py` is not under `src/`).  Per the
spec, `run` "fails with an `InvalidInputError` kind if `x0` is empty, if
`bounds["lower"]` and `bounds["upper"]` differ in length from `x0`, or if
any `lower[i] > upper[i]`". -/
def validInput (x0 : List ℚ) (bounds : Option Bounds) : Bool :=
  !x0.isEmpty &&
    (match bounds with
     | none => true
     | some b =>
         b.lower.length == x0.length && b.upper.length == x0.length &&
           (b.lower.zip b.upper).all fun p => p.1 ≤ p.2)

/-- Modelled from the spec: `BaseOptimiser.run` (file `base_optimiser.py` is
not under `src/`).  Per the spec it validates `x0` and `bounds`, raising
`InvalidInputError` before any backend invocation and performing no
cost-function evaluations itself, then delegates to the adapter's
`_runoptimise`.  The second component counts backend invocations. -/
def SciPyMinimize.run (self : SciPyMinimize) (minimize : Backend)
    (cost_function : CostFn) (x0 : List ℚ) (bounds : Option Bounds) :
    Except PybopError (List ℚ × ℚ) × Nat :=
  if validInput x0 bounds then
    let r := self.runoptimise minimize cost_function x0 bounds
    (.ok r.1, r.2)
  else
    (.error .invalidInput, 0)

/-- Explicit-state form of `_runoptimise`, for the frame claims: alongside
the result it returns the contents of the caller's `bounds` mapping and the
adapter's own fields as they stand after the call.  The source body assigns
only to the local name `bounds` (building a fresh pair sequence) and never
stores into the caller's mapping or into `self`, so the translation returns
both unchanged; a mutation in the source would show up here as a different
returned state. -/
def SciPyMinimize.runoptimiseSt (self : SciPyMinimize) (minimize : Backend)
    (cost_function : CostFn) (x0 : List ℚ) (bounds : Option Bounds) :
    ((List ℚ × ℚ) × Nat) × Option Bounds × SciPyMinimize :=
  match bounds with
  | some b =>
      let localBounds := reformatBounds b
      let output := minimize cost_function x0 self.method (some localBounds)
      (((output.x, output.fun'), 1), some b, self)
  | none =>
      let output := minimize cost_function x0 self.method none
      (((output.x, output.fun'), 1), none, self)

/-- Explicit-state form of `needs_sensitivities`: returns the value together
with the adapter state after the call. -/
def SciPyMinimize.needsSensitivitiesSt (self : SciPyMinimize) :
    Bool × SciPyMinimize :=
  (false, self)

/-- The spec's validity precondition on a `run` call, stated in the claims'
vocabulary: `x0` is non-empty, and when bounds are supplied both sequences
match `x0` in length and `lower[i] ≤ upper[i]` for every index. -/
def validCall (x0 : List ℚ) (bounds : Option Bounds) : Prop :=
  x0 ≠ [] ∧
    match bounds with
    | none => True
    | some b =>
        b.lower.length = x0.length ∧ b.upper.length = x0.length ∧
          ∀ i (h1 : i < b.lower.length) (h2 : i < b.upper.length),
            b.lower.get ⟨i, h1⟩ ≤ b.upper.get ⟨i, h2⟩

/-- The spec's error precondition on a `run` call, stated in the claims'
vocabulary: `x0` is empty, or a bounds sequence differs in length from
`x0`, or some `lower[i] > upper[i]`. -/
def invalidCall (x0 : List ℚ) (bounds : Option Bounds) : Prop :=
  x0 = [] ∨
    match bounds with
    | none => False
    | some b =>
        b.lower.length ≠ x0.length ∨ b.upper.length ≠ x0.length ∨
          ∃ i, ∃ h1 : i < b.lower.length, ∃ h2 : i < b.upper.length,
            b.upper.get ⟨i, h2⟩ < b.lower.get ⟨i, h1⟩

/-- A concrete cost function, used to instantiate witnesses. -/
def demoCost : CostFn := fun _ => 0

/-- A concrete backend that echoes `x0` and reports convergence; it
preserves the length of `x0`, as SciPy's minimizer does. -/
def demoBackend : Backend :=
  fun c x0 _ _ => { x := x0, fun' := c x0, success := true }

/-- A concrete backend whose result reports non-convergence
(`success = False`). -/
def demoFailBackend : Backend :=
  fun c x0 _ _ => { x := x0, fun' := c x0, success := false }

/-- A concrete adapter built with all-default constructor arguments. -/
def demoAdapter : SciPyMinimize := SciPyMinimize.init none none

/-- Membership in a zip, phrased per index: every pair of a zip satisfies
the bound check exactly when the lists satisfy it pointwise. -/
lemma zip_all_le_iff (l u : List ℚ) :
    ((l.zip u).all fun p => p.1 ≤ p.2) = true ↔
      ∀ i (h1 : i < l.length) (h2 : i < u.length),
        l.get ⟨i, h1⟩ ≤ u.get ⟨i, h2⟩ := by
  rw [List.all_eq_true]
  constructor
  · intro hall i h1 h2
    have hz : i < (l.zip u).length := by
      rw [List.length_zip]; omega
    have hmem : (l.zip u).get ⟨i, hz⟩ ∈ l.zip u := List.get_mem _ _ _
    have hle := hall _ hmem
    have hget : (l.zip u).get ⟨i, hz⟩ = (l.get ⟨i, h1⟩, u.get ⟨i, h2⟩) := by
      simp [List.get_eq_getElem, List.getElem_zip]
    rw [hget] at hle
    simpa using hle
  · intro hidx p hp
    obtain ⟨⟨i, hz⟩, hget⟩ := List.mem_iff_get.mp hp
    have h1 : i < l.length := by
      rw [List.length_zip] at hz; omega
    have h2 : i < u.length := by
      rw [List.length_zip] at hz; omega
    have : p = (l.get ⟨i, h1⟩, u.get ⟨i, h2⟩) := by
      rw [← hget]; simp [List.get_eq_getElem, List.getElem_zip]
    subst this
    simpa using hidx i h1 h2

/-- The Boolean validation agrees with the spec-level validity predicate. -/
lemma validInput_iff (x0 : List ℚ) (bounds : Option Bounds) :
    validInput x0 bounds = true ↔ validCall x0 bounds := by
  cases bounds with
  | none =>
    cases x0 <;> simp [validInput, validCall]
  | some b =>
    cases x0 with
    | nil => simp [validInput, validCall]
    | cons a as =>
      simp only [validInput, validCall, List.isEmpty_cons, Bool.not_false,
        Bool.true_and, Bool.and_eq_true, beq_iff_eq, zip_all_le_iff]
      constructor
      · rintro ⟨⟨hl, hu⟩, hall⟩
        exact ⟨List.cons_ne_nil a as, hl, hu, hall⟩
      · rintro ⟨-, hl, hu, hall⟩
        exact ⟨⟨hl, hu⟩, hall⟩

/-- An invalid call fails the Boolean validation. -/
lemma invalidCall_validInput_false {x0 : List ℚ} {bounds : Option Bounds}
    (h : invalidCall x0 bounds) : validInput x0 bounds = false := by
  rcases Bool.eq_false_or_eq_true (validInput x0 bounds) with hv | hv
  case inr => exact hv
  exfalso
  have hc := (validInput_iff x0 bounds).mp hv
  cases bounds with
  | none =>
    have h' : x0 = [] ∨ False := h
    rcases h' with h' | h'
    · exact hc.1 h'
    · exact h'
  | some b =>
    have h' : x0 = [] ∨ (b.lower.length ≠ x0.length ∨ b.upper.length ≠ x0.length ∨
        ∃ i, ∃ h1 : i < b.lower.length, ∃ h2 : i < b.upper.length,
          b.upper.get ⟨i, h2⟩ < b.lower.get ⟨i, h1⟩) := h
    have hc' : x0 ≠ [] ∧ (b.lower.length = x0.length ∧ b.upper.length = x0.length ∧
        ∀ i (h1 : i < b.lower.length) (h2 : i < b.upper.length),
          b.lower.get ⟨i, h1⟩ ≤ b.upper.get ⟨i, h2⟩) := hc
    rcases h' with h' | h' | h' | ⟨i, h1, h2, hlt⟩
    · exact hc'.1 h'
    · exact h' hc'.2.1
    · exact h' hc'.2.2.1
    · exact absurd (hc'.2.2.2 i h1 h2) (not_le.mpr hlt)

/-- Claim C1: for every call to `run` on the gradient-based adapter with an
empty `x0`, or with bounds whose lower or upper sequence differs in length
from `x0`, or with `lower[i] > upper[i]` for some `i`, the call fails with
an `InvalidInputError` before any backend invocation (invocation count 0)
and before any evaluation of the cost function: the outcome does not depend
on the backend or on the cost function. -/
theorem C1_run_rejects_invalid_input (self : SciPyMinimize)
    (m m' : Backend) (c c' : CostFn) (x0 : List ℚ) (bounds : Option Bounds)
    (h : invalidCall x0 bounds) :
    self.run m c x0 bounds = (Except.error PybopError.invalidInput, 0) ∧
      self.run m c x0 bounds = self.run m' c' x0 bounds := by
  have hv : validInput x0 bounds = false := invalidCall_validInput_false h
  constructor <;> simp [SciPyMinimize.run, hv]

/-- Witness for C1 at the concrete invalid input `x0 = []`, `bounds = None`. -/
theorem C1_run_rejects_invalid_input_witness :
    invalidCall ([] : List ℚ) none ∧
      (demoAdapter.run demoBackend demoCost [] none
          = (Except.error PybopError.invalidInput, 0) ∧
        demoAdapter.run demoBackend demoCost [] none
          = demoAdapter.run demoFailBackend demoCost [] none) :=
  ⟨Or.inl rfl,
    C1_run_rejects_invalid_input demoAdapter demoBackend demoFailBackend
      demoCost demoCost [] none (Or.inl rfl)⟩

/-- Claim C2: a non-`None` bounds mapping is converted into the backend's
per-parameter sequence of `(lower_i, upper_i)` pairs preserving parameter
order — the `i`-th pair is `(bounds["lower"][i], bounds["upper"][i])` — and
that pair sequence is what the backend receives; with `bounds = None` the
backend minimizer is invoked without any bounds argument. -/
theorem C2_bounds_translation (self : SciPyMinimize) (m : Backend)
    (c : CostFn) (x0 : List ℚ) (b : Bounds)
    (hlen : b.lower.length = b.upper.length) :
    ((reformatBounds b).length = b.lower.length ∧
      ∀ i (h1 : i < b.lower.length) (h2 : i < b.upper.length),
        (reformatBounds b)[i]? = some (b.lower.get ⟨i, h1⟩, b.upper.get ⟨i, h2⟩)) ∧
    (self.runoptimise m c x0 (some b)).1 =
      ((m c x0 self.method (some (reformatBounds b))).x,
        (m c x0 self.method (some (reformatBounds b))).fun') ∧
    (self.runoptimise m c x0 none).1 =
      ((m c x0 self.method none).x, (m c x0 self.method none).fun') := by
  refine ⟨⟨?_, ?_⟩, rfl, rfl⟩
  · rw [reformatBounds, List.length_zip, hlen, Nat.min_self]
  · intro i h1 h2
    have hz : i < (b.lower.zip b.upper).length := by
      rw [List.length_zip]; omega
    rw [reformatBounds, List.getElem?_eq_getElem hz, List.getElem_zip]
    simp [List.get_eq_getElem]

/-- Witness for C2 at the concrete bounds `{lower: [0, 1], upper: [2, 3]}`. -/
theorem C2_bounds_translation_witness :
    ([(0 : ℚ), 1]).length = ([(2 : ℚ), 3]).length ∧
    (((reformatBounds ⟨[0, 1], [2, 3]⟩).length = ([(0 : ℚ), 1]).length ∧
      ∀ i (h1 : i < ([(0 : ℚ), 1]).length) (h2 : i < ([(2 : ℚ), 3]).length),
        (reformatBounds ⟨[0, 1], [2, 3]⟩)[i]? =
          some (([(0 : ℚ), 1]).get ⟨i, h1⟩, ([(2 : ℚ), 3]).get ⟨i, h2⟩)) ∧
    (demoAdapter.runoptimise demoBackend demoCost [1, 1] (some ⟨[0, 1], [2, 3]⟩)).1 =
      ((demoBackend demoCost [1, 1] demoAdapter.method
          (some (reformatBounds ⟨[0, 1], [2, 3]⟩))).x,
        (demoBackend demoCost [1, 1] demoAdapter.method
          (some (reformatBounds ⟨[0, 1], [2, 3]⟩))).fun') ∧
    (demoAdapter.runoptimise demoBackend demoCost [1, 1] none).1 =
      ((demoBackend demoCost [1, 1] demoAdapter.method none).x,
        (demoBackend demoCost [1, 1] demoAdapter.method none).fun')) :=
  ⟨rfl, C2_bounds_translation demoAdapter demoBackend demoCost [1, 1]
    ⟨[0, 1], [2, 3]⟩ rfl⟩

/-- Claim C3: when no method is specified (omitted or `None`), the adapter's
selected method is "L-BFGS-B"; a supplied method is kept unchanged. -/
theorem C3_default_method :
    (∀ b, (SciPyMinimize.init none b).method = "L-BFGS-B") ∧
      ∀ meth b, (SciPyMinimize.init (some meth) b).method = meth :=
  ⟨fun _ => rfl, fun _ _ => rfl⟩

/-- Claim C4: `needs_sensitivities()` returns `False` on every adapter
instance, has no side effect on the adapter state, and does not depend on
the constructor arguments. -/
theorem C4_needs_sensitivities_false :
    (∀ self : SciPyMinimize, self.needs_sensitivities = false) ∧
      (∀ self : SciPyMinimize, self.needsSensitivitiesSt = (false, self)) ∧
      ∀ m1 b1 m2 b2,
        (SciPyMinimize.init m1 b1).needs_sensitivities
          = (SciPyMinimize.init m2 b2).needs_sensitivities :=
  ⟨fun _ => rfl, fun _ => rfl, fun _ _ _ _ => rfl⟩

/-- Claim C5: the result returned by `_runoptimise` is exactly the pair
`(output.x, output.fun)` read directly from the backend's native result
object, with no other transformation applied. -/
theorem C5_result_extraction (self : SciPyMinimize) (m : Backend)
    (c : CostFn) (x0 : List ℚ) (bounds : Option Bounds) :
    (self.runoptimise m c x0 bounds).1 =
      ((m c x0 self.method (Option.map reformatBounds bounds)).x,
        (m c x0 self.method (Option.map reformatBounds bounds)).fun') := by
  cases bounds <;> rfl

/-- Claim C6: on every run, the backend minimizer is invoked exactly once
per `_runoptimise` (invocation count 1, unconditionally — no retry on
failure or non-convergence); and whenever the backend reports
non-convergence (`success = False`), the adapter still returns the
`(x, fun)` the backend last held rather than raising an error. -/
theorem C6_single_invocation_nonfatal (self : SciPyMinimize) (m : Backend)
    (c : CostFn) (x0 : List ℚ) (bounds : Option Bounds) :
    (self.runoptimise m c x0 bounds).2 = 1 ∧
      ((m c x0 self.method (Option.map reformatBounds bounds)).success = false →
        (self.runoptimise m c x0 bounds).1 =
          ((m c x0 self.method (Option.map reformatBounds bounds)).x,
            (m c x0 self.method (Option.map reformatBounds bounds)).fun')) := by
  cases bounds <;> exact ⟨rfl, fun _ => rfl⟩

/-- Witness for C6 with a concrete backend that reports non-convergence:
the single-invocation count and, discharging the non-convergence condition
concretely, the returned pair. -/
theorem C6_single_invocation_nonfatal_witness :
    (demoAdapter.runoptimise demoFailBackend demoCost [1] none).2 = 1 ∧
      ((demoFailBackend demoCost [1] demoAdapter.method
          (Option.map reformatBounds none)).success = false ∧
        (demoAdapter.runoptimise demoFailBackend demoCost [1] none).1 =
          ((demoFailBackend demoCost [1] demoAdapter.method
              (Option.map reformatBounds none)).x,
            (demoFailBackend demoCost [1] demoAdapter.method
              (Option.map reformatBounds none)).fun')) :=
  ⟨(C6_single_invocation_nonfatal demoAdapter demoFailBackend demoCost
      [1] none).1,
    rfl,
    (C6_single_invocation_nonfatal demoAdapter demoFailBackend demoCost
      [1] none).2 rfl⟩

/-- Claim C7: the caller's bounds structure is unchanged after the run: the
optimiser never mutates it (the source only rebinds a local name to the
fresh pair sequence). -/
theorem C7_bounds_not_mutated (self : SciPyMinimize) (m : Backend)
    (c : CostFn) (x0 : List ℚ) (bounds : Option Bounds) :
    (self.runoptimiseSt m c x0 bounds).2.1 = bounds := by
  cases bounds <;> rfl

/-- Claim C9: the adapter's configuration (name, method, stored bounds) is
unchanged by `_runoptimise` and by `needs_sensitivities`: the state read
after any run equals the state before. -/
theorem C9_config_immutable (self : SciPyMinimize) (m : Backend)
    (c : CostFn) (x0 : List ℚ) (bounds : Option Bounds) :
    (self.runoptimiseSt m c x0 bounds).2.2 = self ∧
      self.needsSensitivitiesSt.2 = self := by
  cases bounds <;> exact ⟨rfl, rfl⟩

/-- Claim C10: the constructor `bounds` argument has no effect on a run: two
adapters built with the same method but different constructor bounds give
identical `_runoptimise` and `run` behaviour, since `self.bounds` is never
read during a run. -/
theorem C10_constructor_bounds_no_influence (meth : Option String)
    (b1 b2 : Option Bounds) (m : Backend) (c : CostFn) (x0 : List ℚ)
    (rb : Option Bounds) :
    (SciPyMinimize.init meth b1).runoptimise m c x0 rb
        = (SciPyMinimize.init meth b2).runoptimise m c x0 rb ∧
      (SciPyMinimize.init meth b1).run m c x0 rb
        = (SciPyMinimize.init meth b2).run m c x0 rb := by
  cases rb <;> exact ⟨rfl, rfl⟩

/-- Counterexample to claim C8 as stated: `x0 = []` with bounds
`{lower: [], upper: []}` satisfies the claim's stated validity conditions
(equal lengths, vacuously ordered), and `x0 = []` with `bounds = None`
falls under its "every x0 with bounds=None" part, yet `run` returns an
`InvalidInputError` rather than any `x` (the spec requires `x0` to be
non-empty). -/
theorem C8_counterexample_empty_x0 :
    (¬ ∃ x fc, (demoAdapter.run demoBackend demoCost [] (some ⟨[], []⟩)).1
        = Except.ok (x, fc)) ∧
      ¬ ∃ x fc, (demoAdapter.run demoBackend demoCost [] none).1
        = Except.ok (x, fc) := by
  constructor <;>
    · rintro ⟨x, fc, h⟩
      simp [demoAdapter, SciPyMinimize.run, validInput] at h

/-- Claim C8 (amended: `x0` must additionally be non-empty, as the spec's
own error conditions require): for every non-empty `x0` with `bounds = None`
or with bounds sequences matching `x0` in length and `lower[i] ≤ upper[i]`
for all `i`, and every backend that preserves the length of `x0` (as
SciPy's minimizer does), `run` succeeds and returns an `x` whose length
equals `len(x0)`. -/
theorem C8_valid_run_length (self : SciPyMinimize) (m : Backend)
    (c : CostFn) (x0 : List ℚ) (bounds : Option Bounds)
    (hvalid : validCall x0 bounds)
    (hlen : ∀ meth bb, (m c x0 meth bb).x.length = x0.length) :
    ∃ x fc, self.run m c x0 bounds = (Except.ok (x, fc), 1) ∧
      x.length = x0.length := by
  have hv : validInput x0 bounds = true := (validInput_iff x0 bounds).mpr hvalid
  cases bounds with
  | none =>
    exact ⟨(m c x0 self.method none).x, (m c x0 self.method none).fun',
      by simp [SciPyMinimize.run, hv, SciPyMinimize.runoptimise], hlen _ _⟩
  | some b =>
    exact ⟨(m c x0 self.method (some (reformatBounds b))).x,
      (m c x0 self.method (some (reformatBounds b))).fun',
      by simp [SciPyMinimize.run, hv, SciPyMinimize.runoptimise], hlen _ _⟩

/-- Witness for the amended C8 at the concrete valid input `x0 = [1]`,
`bounds = None`, with the length-preserving concrete backend. -/
theorem C8_valid_run_length_witness :
    validCall [(1 : ℚ)] none ∧
      (∀ meth bb, (demoBackend demoCost [1] meth bb).x.length
          = ([(1 : ℚ)]).length) ∧
      ∃ x fc, demoAdapter.run demoBackend demoCost [1] none
          = (Except.ok (x, fc), 1) ∧ x.length = ([(1 : ℚ)]).length :=
  ⟨⟨List.cons_ne_nil _ _, trivial⟩, fun _ _ => rfl,
    C8_valid_run_length demoAdapter demoBackend demoCost [1] none
      ⟨List.cons_ne_nil _ _, trivial⟩ fun _ _ => rfl⟩
